import Mathlib

/-!
Verification of the Restaurant-Demand-Forecast pipeline.

Shallow embedding of the two Python modules that carry the algorithmic
content of the repository:

* `src/data_preparation.py` — hourly demand table preparation
  (`prepare_swiggy_demand_data`) and feature engineering
  (`create_logistics_features`): lag features via per-restaurant shifts,
  a trailing 3-hour rolling mean, festival flags, and the global
  bfill/ffill missing-value policy.
* `src/forecasting_engine.py` — forecast post-processing
  (`get_demand_forecast`): future feature rows, clamping of raw model
  output, staffing translation, rush-period labelling; and the business
  summary (`calculate_logistics_impact`).

Modelling conventions:

* Timestamps are `Nat` hours since the epoch 2022-01-01 00:00 (the start
  of the reference dataset).  Hour-of-day is `t % 24`, the day number is
  `t / 24`, and 2022-01-01 was a Saturday, so pandas `dayofweek`
  (Monday = 0) is `(t / 24 + 5) % 7`.
* Python floats are modelled as exact rationals (`ℚ`); the literals
  `0.6`, `0.75` become `3/5`, `3/4`.  Python `int(x)` truncates toward
  zero, embedded as `ratTrunc`.
* pandas missing values (`NaN` from `shift`) are modelled as `Option ℚ`;
  `fillna(method='bfill')` / `fillna(method='ffill')` become `bfill` /
  `ffill` on `List (Option ℚ)`.
* The fitted Prophet model is opaque: `predict` is an arbitrary function
  from a future feature row to a prediction (point value and interval
  bounds), with the feature columns of the future frame available to the
  result loop exactly as the code reads them.
-/

/-- Python `int(x)` on a real value: truncation toward zero. -/
def ratTrunc (q : ℚ) : ℤ := if q < 0 then ⌈q⌉ else ⌊q⌋

/-- Python `round` at integer precision: round half to even (banker's
rounding), on exact rationals. -/
def roundHalfEven (q : ℚ) : ℤ :=
  if q - ⌊q⌋ < 1/2 then ⌊q⌋
  else if 1/2 < q - ⌊q⌋ then ⌊q⌋ + 1
  else if ⌊q⌋ % 2 = 0 then ⌊q⌋ else ⌊q⌋ + 1

/-- Python `round(x, 1)`: one decimal place, half to even. -/
def round1 (q : ℚ) : ℚ := (roundHalfEven (10 * q) : ℚ) / 10

/-! ## Data model of the hourly demand table (`data_preparation.py`) -/

/-- One row of the aggregated hourly demand table produced by
`prepare_swiggy_demand_data`: one (hour, restaurant) pair. -/
structure DemandRow where
  restaurant_id : Nat
  order_date : Nat
  order_count : ℚ
  is_weekend : Bool
  is_lunch_rush : Bool
  is_dinner_rush : Bool
  weather_impact : ℚ
deriving DecidableEq, Repr

/-- `df.loc[(df['hour'] >= 12) & (df['hour'] <= 14), 'is_lunch_rush'] = 1`
followed by `fillna(0)` (data_preparation.py lines 43, 45), as a predicate
on the hour of day. -/
def prep_is_lunch_rush (hour : Nat) : Bool := decide (12 ≤ hour ∧ hour ≤ 14)

/-- `df.loc[(df['hour'] >= 19) & (df['hour'] <= 22), 'is_dinner_rush'] = 1`
followed by `fillna(0)` (data_preparation.py lines 44, 46). -/
def prep_is_dinner_rush (hour : Nat) : Bool := decide (19 ≤ hour ∧ hour ≤ 22)

/-! ## Feature engineering (`create_logistics_features`) -/

/-- pandas `Series.shift(k)` on one group's column: position `i` receives
the value at position `i - k`, and the first `k` positions are missing. -/
def shiftOpt (k : Nat) (xs : List ℚ) : List (Option ℚ) :=
  (List.range xs.length).map (fun i => if k ≤ i then xs[i - k]? else none)

/-- The window mean behind `x.rolling(w, min_periods=1).mean()` at
position `i`: the trailing window of the `min w (i+1)` values ending at
`i` (all of them in range because `min_periods=1 ≤ window size`). -/
def rollingMeanAt (w : Nat) (xs : List ℚ) (i : Nat) : ℚ :=
  let win := (xs.take (i + 1)).drop (i + 1 - w)
  win.sum / (win.length : ℚ)

/-- pandas `x.rolling(w, min_periods=1).mean()` over a whole column. -/
def rollingMean (w : Nat) (xs : List ℚ) : List ℚ :=
  (List.range xs.length).map (rollingMeanAt w xs)

/-- The `orders_3h_mean` column (data_preparation.py lines 88-90):
`rolling(3, min_periods=1).mean()` of `order_count`. -/
def orders_3h_mean (xs : List ℚ) : List ℚ := rollingMean 3 xs

/-- The festival dates of data_preparation.py lines 94-97, as day numbers
since 2022-01-01 (2022-10-24, 2022-11-12, 2022-12-25, 2023-01-26,
2023-03-08). -/
def festivalDays : List Nat := [296, 315, 358, 390, 431]

/-- A demand row together with the engineered feature columns. -/
structure FeatRow where
  restaurant_id : Nat
  order_date : Nat
  order_count : ℚ
  is_weekend : Bool
  is_lunch_rush : Bool
  is_dinner_rush : Bool
  weather_impact : ℚ
  orders_last_hour : Option ℚ
  orders_last_day_same_hour : Option ℚ
  orders_3h_mean : ℚ
  is_festival : Bool
deriving DecidableEq, Repr

/-- Attach the three engineered values and the festival flag to a row. -/
def withFeatures (r : DemandRow) (l1 l24 : Option ℚ) (m3 : ℚ) : FeatRow :=
  { restaurant_id := r.restaurant_id, order_date := r.order_date,
    order_count := r.order_count, is_weekend := r.is_weekend,
    is_lunch_rush := r.is_lunch_rush, is_dinner_rush := r.is_dinner_rush,
    weather_impact := r.weather_impact, orders_last_hour := l1,
    orders_last_day_same_hour := l24, orders_3h_mean := m3,
    is_festival := decide (r.order_date / 24 ∈ festivalDays) }

/-- Column-wise zip of a row list with three feature columns. -/
def zip4With (f : α → β → γ → δ → ε) :
    List α → List β → List γ → List δ → List ε
  | a :: as, b :: bs, c :: cs, d :: ds => f a b c d :: zip4With f as bs cs ds
  | _, _, _, _ => []

/-- The per-restaurant part of `create_logistics_features` on one
restaurant's time-ordered series: `shift(1)`, `shift(24)` and the rolling
mean of `order_count`, plus the festival flag (lines 83-98). -/
def featuresForSeries (rows : List DemandRow) : List FeatRow :=
  let xs := rows.map (fun r => r.order_count)
  zip4With withFeatures rows (shiftOpt 1 xs) (shiftOpt 24 xs) (rollingMean 3 xs)

/-- Stable insertion of a row into a list sorted by `order_date`. -/
def insertByDate (a : DemandRow) : List DemandRow → List DemandRow
  | [] => [a]
  | b :: bs => if a.order_date ≤ b.order_date then a :: b :: bs
               else b :: insertByDate a bs

/-- Sort one restaurant's rows ascending by `order_date`
(`df.sort_values(['restaurant_id', 'order_date'])` restricted to a single
restaurant, where the lexicographic key degenerates to the date). -/
def sortSeries (rows : List DemandRow) : List DemandRow :=
  rows.foldr insertByDate []

/-- The time-ordered series of one restaurant inside the table: the
group `groupby('restaurant_id')` hands to `shift`/`rolling`. -/
def seriesOf (tbl : List DemandRow) (r : Nat) : List DemandRow :=
  sortSeries (tbl.filter (fun row => row.restaurant_id == r))

/-- First occurrences of each value, in order of appearance. -/
def uniqueAux (seen : List Nat) : List Nat → List Nat
  | [] => []
  | r :: rest =>
      if r ∈ seen then uniqueAux seen rest else r :: uniqueAux (r :: seen) rest

/-- Insertion of a `Nat` into an ascending list. -/
def insertNat (a : Nat) : List Nat → List Nat
  | [] => [a]
  | b :: bs => if a ≤ b then a :: b :: bs else b :: insertNat a bs

/-- The distinct restaurant ids of the table in ascending order (the group
order of `groupby` on the sorted table). -/
def sortedIDs (tbl : List DemandRow) : List Nat :=
  (uniqueAux [] (tbl.map (fun r => r.restaurant_id))).foldr insertNat []

/-- The feature table before the fill step: per-restaurant features,
restaurants in ascending id order as in the sorted frame. -/
def logisticsBase (tbl : List DemandRow) : List FeatRow :=
  ((sortedIDs tbl).map (fun r => featuresForSeries (seriesOf tbl r))).flatten

/-- pandas forward fill on one column, carrying the last defined value. -/
def ffillAux (c : Option ℚ) : List (Option ℚ) → List (Option ℚ)
  | [] => []
  | none :: xs => c :: ffillAux c xs
  | some v :: xs => some v :: ffillAux (some v) xs

/-- `fillna(method='ffill')` on one column. -/
def ffill (xs : List (Option ℚ)) : List (Option ℚ) := ffillAux none xs

/-- `fillna(method='bfill')` on one column: forward fill on the reversed
column. -/
def bfill (xs : List (Option ℚ)) : List (Option ℚ) :=
  (ffill xs.reverse).reverse

/-- The fill policy of data_preparation.py line 101:
`df.fillna(method='bfill').fillna(method='ffill')`, column-wise. -/
def fillColumn (xs : List (Option ℚ)) : List (Option ℚ) := ffill (bfill xs)

/-- Column-wise zip of the rows with the two filled lag columns. -/
def zip3With (f : α → β → γ → δ) : List α → List β → List γ → List δ
  | a :: as, b :: bs, c :: cs => f a b c :: zip3With f as bs cs
  | _, _, _ => []

/-- Apply the global fill to the two columns that can contain missing
values (the lag columns created by `shift`; every other column of the
frame is total, and the rolling mean with `min_periods=1` never is
missing). -/
def applyFill (rows : List FeatRow) : List FeatRow :=
  zip3With
    (fun r a b => { r with orders_last_hour := a, orders_last_day_same_hour := b })
    rows
    (fillColumn (rows.map (fun r => r.orders_last_hour)))
    (fillColumn (rows.map (fun r => r.orders_last_day_same_hour)))

/-- `create_logistics_features` (data_preparation.py lines 74-104): sort
by (restaurant, time), per-restaurant lag and rolling features, festival
flag, then the global bfill/ffill.  The function is total: it returns the
table unconditionally, raising no error. -/
def create_logistics_features (tbl : List DemandRow) : List FeatRow :=
  applyFill (logisticsBase tbl)

/-! ## Forecast post-processing (`forecasting_engine.py`) -/

/-- One row of the Prophet output the result loop reads: the point
forecast `yhat` and the interval bounds. -/
structure Prediction where
  yhat : ℚ
  yhat_lower : ℚ
  yhat_upper : ℚ
deriving DecidableEq, Repr

/-- One future feature row of the frame built in `get_demand_forecast`
(lines 89-94). -/
structure FutureRow where
  ds : Nat
  is_weekend : Bool
  is_lunch_rush : Bool
  is_dinner_rush : Bool
  weather_impact : ℚ
  is_festival : Bool
deriving DecidableEq, Repr

/-- pandas `dayofweek` (Monday = 0) of an hour timestamp; the epoch day
2022-01-01 was a Saturday (= 5). -/
def dayofweek (t : Nat) : Nat := (t / 24 + 5) % 7

/-- `(future['ds'].dt.hour >= 12) & (future['ds'].dt.hour <= 14)`
(forecasting_engine.py line 91). -/
def fut_is_lunch_rush (t : Nat) : Bool := decide (12 ≤ t % 24 ∧ t % 24 ≤ 14)

/-- `(future['ds'].dt.hour >= 19) & (future['ds'].dt.hour <= 22)`
(forecasting_engine.py line 92). -/
def fut_is_dinner_rush (t : Nat) : Bool := decide (19 ≤ t % 24 ∧ t % 24 ≤ 22)

/-- The future feature row for hour `t` (weather and festival default to
0, lines 93-94). -/
def mkFutureRow (t : Nat) : FutureRow :=
  { ds := t, is_weekend := decide (5 ≤ dayofweek t),
    is_lunch_rush := fut_is_lunch_rush t,
    is_dinner_rush := fut_is_dinner_rush t,
    weather_impact := 0, is_festival := false }

/-- `pd.date_range(start=last_date, periods=hours+1, freq='H')[1:]`
(line 87): the `hours` consecutive hours after `t0`, excluding `t0`
itself. -/
def makeFuture (t0 hours : Nat) : List FutureRow :=
  (List.range hours).map (fun i => mkFutureRow (t0 + 1 + i))

/-- The rush-period label of a result row. -/
inductive RushPeriod
  | lunch
  | dinner
  | regular
deriving DecidableEq, Repr

/-- Line 113-114: `"Lunch Rush" if is_lunch_rush else "Dinner Rush" if
is_dinner_rush else "Regular"`. -/
def rushLabel (l d : Bool) : RushPeriod :=
  if l then .lunch else if d then .dinner else .regular

/-- Line 103: `predicted_orders = max(0, int(row['yhat']))`. -/
def predicted_orders_of (yhat : ℚ) : ℤ := max 0 (ratTrunc yhat)

/-- Line 106: `delivery_partners = max(1, int(predicted_orders * 0.6))`
(`0.6` is the exact double rounding of the literal; on the integer
`predicted_orders` the product is modelled exactly as `p * (3/5)`). -/
def delivery_partners_of (p : ℤ) : ℤ := max 1 (ratTrunc ((p : ℚ) * (3 / 5)))

/-- One record of the result list of `get_demand_forecast` (lines
108-115); `hour` keeps the timestamp behind the formatted string, and the
`confidence_interval` string `"{int(lower)}-{int(upper)}"` is kept as its
two integer components. -/
structure ResultRow where
  hour : Nat
  predicted_orders : ℤ
  delivery_partners_needed : ℤ
  conf_lower : ℤ
  conf_upper : ℤ
  rush_period : RushPeriod
deriving DecidableEq, Repr

/-- The body of the result loop (lines 101-115) for one forecast row.
The opaque fitted model is the function `predict`; the loop reads the
rush flags of the row of the frame it iterates, which carries the flags
of the corresponding future feature row. -/
def resultOf (predict : FutureRow → Prediction) (row : FutureRow) : ResultRow :=
  let pr := predict row
  let po := predicted_orders_of pr.yhat
  { hour := row.ds, predicted_orders := po,
    delivery_partners_needed := delivery_partners_of po,
    conf_lower := ratTrunc pr.yhat_lower, conf_upper := ratTrunc pr.yhat_upper,
    rush_period := rushLabel row.is_lunch_rush row.is_dinner_rush }

/-- `get_demand_forecast(model, hours)` (lines 77-117) with the current
hour floored to `t0`: build the future frame for the `hours` hours after
`t0`, predict, and convert every row to business terms. -/
def get_demand_forecast (predict : FutureRow → Prediction) (t0 hours : Nat) :
    List ResultRow :=
  (makeFuture t0 hours).map (resultOf predict)

/-- The dictionary returned by `calculate_logistics_impact` (lines
139-144): `estimated_cost_savings` keeps the integer inside the formatted
rupee string. -/
structure LogisticsImpact where
  total_predicted_orders : ℤ
  delivery_partners_saved : ℤ
  estimated_cost_savings : ℤ
  avg_delivery_partners : ℚ
deriving DecidableEq, Repr

/-- `calculate_logistics_impact(forecast_results)` (lines 119-144).
`len(df)` is the number of forecasted hours; for an empty list Python
would divide by zero, while the rational embedding yields `x / 0 = 0` —
the theorems therefore restrict to non-empty forecasts. -/
def calculate_logistics_impact (rows : List ResultRow) : LogisticsImpact :=
  let total_orders : ℤ := (rows.map (fun r => r.predicted_orders)).sum
  let total_partners : ℤ := (rows.map (fun r => r.delivery_partners_needed)).sum
  let avg : ℚ := (total_partners : ℚ) / (rows.length : ℚ)
  let baseline : ℚ := (total_orders : ℚ) * (3 / 4)
  let saved : ℚ := baseline - (total_partners : ℚ)
  let cost : ℚ := saved * 150
  { total_predicted_orders := total_orders,
    delivery_partners_saved := ratTrunc saved,
    estimated_cost_savings := ratTrunc cost,
    avg_delivery_partners := round1 avg }

/-! ## Concrete inputs used by witnesses and counterexamples -/

/-- A constant model output. -/
def predictZero : FutureRow → Prediction := fun _ => ⟨0, 0, 0⟩

/-- A model whose raw output is negative at every hour. -/
def predictNeg : FutureRow → Prediction := fun _ => ⟨-5, -9, -1⟩

/-- A model predicting 3 orders in the first future hour (timestamp 1)
and 997 in every other hour. -/
def predictCex : FutureRow → Prediction :=
  fun row => if row.ds = 1 then ⟨3, 0, 0⟩ else ⟨997, 990, 1004⟩

/-- A model predicting 1000 orders each hour. -/
def predict1000 : FutureRow → Prediction := fun _ => ⟨1000, 950, 1050⟩

/-- A single-row demand table: one restaurant, one observed hour. -/
def demandRow0 : DemandRow :=
  { restaurant_id := 1, order_date := 0, order_count := 5,
    is_weekend := true, is_lunch_rush := false, is_dinner_rush := false,
    weather_impact := 0 }

/-- A 25-hour single-restaurant series with `order_count j = j`. -/
def rows25 : List DemandRow :=
  (List.range 25).map (fun j =>
    { restaurant_id := 1, order_date := j, order_count := (j : ℚ),
      is_weekend := true, is_lunch_rush := prep_is_lunch_rush (j % 24),
      is_dinner_rush := prep_is_dinner_rush (j % 24), weather_impact := 0 })

/-- The 48-observation series of the spec scenario: `order_count`
alternating between 10 and 20, starting at 10. -/
def alt48 : List ℚ :=
  (List.range 48).map (fun j => if j % 2 = 0 then (10 : ℚ) else 20)

/-- The row of `rows25` at position 24. -/
def r24w : DemandRow :=
  { restaurant_id := 1, order_date := 24, order_count := 24,
    is_weekend := true, is_lunch_rush := false, is_dinner_rush := false,
    weather_impact := 0 }

/-! ## Helper lemmas -/

theorem zip4With_getElem? (f : α → β → γ → δ → ε) (as : List α) (bs : List β)
    (cs : List γ) (ds : List δ) (i : Nat) (a : α) (b : β) (c : γ) (d : δ)
    (ha : as[i]? = some a) (hb : bs[i]? = some b) (hc : cs[i]? = some c)
    (hd : ds[i]? = some d) :
    (zip4With f as bs cs ds)[i]? = some (f a b c d) := by
  induction as generalizing bs cs ds i with
  | nil => simp at ha
  | cons a0 as ih =>
    cases bs with
    | nil => simp at hb
    | cons b0 bs =>
      cases cs with
      | nil => simp at hc
      | cons c0 cs =>
        cases ds with
        | nil => simp at hd
        | cons d0 ds =>
          cases i with
          | zero =>
            simp only [List.getElem?_cons_zero, Option.some.injEq] at ha hb hc hd
            simp [zip4With, ha, hb, hc, hd]
          | succ i =>
            simp only [List.getElem?_cons_succ] at ha hb hc hd
            simpa [zip4With] using ih bs cs ds i ha hb hc hd

theorem shiftOpt_length (k : Nat) (xs : List ℚ) :
    (shiftOpt k xs).length = xs.length := by
  simp [shiftOpt]

theorem shiftOpt_getElem? (k : Nat) (xs : List ℚ) (i : Nat) (h : i < xs.length) :
    (shiftOpt k xs)[i]? = some (if k ≤ i then xs[i - k]? else none) := by
  simp [shiftOpt, List.getElem?_map, List.getElem?_range, h]

theorem rollingMean_length (w : Nat) (xs : List ℚ) :
    (rollingMean w xs).length = xs.length := by
  simp [rollingMean]

theorem rollingMean_getElem? (w : Nat) (xs : List ℚ) (i : Nat)
    (h : i < xs.length) :
    (rollingMean w xs)[i]? = some (rollingMeanAt w xs i) := by
  simp [rollingMean, List.getElem?_map, List.getElem?_range, h]

theorem featuresForSeries_getElem? (rows : List DemandRow) (i : Nat)
    (r : DemandRow) (h : rows[i]? = some r) :
    (featuresForSeries rows)[i]? =
      some (withFeatures r
        (if 1 ≤ i then (rows.map (fun x => x.order_count))[i - 1]? else none)
        (if 24 ≤ i then (rows.map (fun x => x.order_count))[i - 24]? else none)
        (rollingMeanAt 3 (rows.map (fun x => x.order_count)) i)) := by
  have hi : i < rows.length := by
    rcases List.getElem?_eq_some.mp h with ⟨hlt, _⟩
    exact hlt
  have hxlen : (rows.map (fun x => x.order_count)).length = rows.length :=
    List.length_map _ _
  apply zip4With_getElem? withFeatures rows _ _ _ i r _ _ _ h
  · rw [shiftOpt_getElem? 1 _ i (by omega)]
  · rw [shiftOpt_getElem? 24 _ i (by omega)]
  · rw [rollingMean_getElem? 3 _ i (by omega)]

theorem ffillAux_length (c : Option ℚ) (xs : List (Option ℚ)) :
    (ffillAux c xs).length = xs.length := by
  induction xs generalizing c with
  | nil => rfl
  | cons x xs ih =>
    cases x with
    | none => simp [ffillAux, ih]
    | some v => simp [ffillAux, ih]

theorem bfill_length (xs : List (Option ℚ)) : (bfill xs).length = xs.length := by
  simp [bfill, ffill, ffillAux_length]

theorem fillColumn_length (xs : List (Option ℚ)) :
    (fillColumn xs).length = xs.length := by
  simp [fillColumn, ffill, ffillAux_length, bfill_length]

theorem ffillAux_isSome (c : Option ℚ) (hc : c.isSome) (xs : List (Option ℚ)) :
    ∀ z ∈ ffillAux c xs, z.isSome := by
  induction xs generalizing c with
  | nil => intro z hz; simp [ffillAux] at hz
  | cons x xs ih =>
    intro z hz
    cases x with
    | none =>
      simp only [ffillAux, List.mem_cons] at hz
      rcases hz with rfl | hz
      · exact hc
      · exact ih c hc z hz
    | some v =>
      simp only [ffillAux, List.mem_cons] at hz
      rcases hz with rfl | hz
      · rfl
      · exact ih (some v) rfl z hz

theorem getLast?_cons_of_ne_nil (a : Option ℚ) (l : List (Option ℚ))
    (h : l ≠ []) : (a :: l).getLast? = l.getLast? := by
  cases l with
  | nil => exact absurd rfl h
  | cons b t => rfl

theorem getLast?_isSome_of_all_isSome (l : List (Option ℚ)) (hne : l ≠ [])
    (hall : ∀ z ∈ l, z.isSome) : ∃ v : ℚ, l.getLast? = some (some v) := by
  have hs := List.getLast?_isSome.mpr hne
  rcases Option.isSome_iff_exists.mp hs with ⟨z, hz⟩
  have hmem : z ∈ l := List.mem_of_mem_getLast? (by simp [hz])
  rcases Option.isSome_iff_exists.mp (hall z hmem) with ⟨v, rfl⟩
  exact ⟨v, hz⟩

theorem ffillAux_ne_nil (c : Option ℚ) (xs : List (Option ℚ)) (h : xs ≠ []) :
    ffillAux c xs ≠ [] := by
  intro hc0
  have hl := ffillAux_length c xs
  rw [hc0] at hl
  exact h (List.eq_nil_of_length_eq_zero hl.symm)

theorem ffillAux_getLast? (c : Option ℚ) (xs : List (Option ℚ))
    (h : ∃ v : ℚ, some v ∈ xs) :
    ∃ v : ℚ, (ffillAux c xs).getLast? = some (some v) := by
  induction xs generalizing c with
  | nil => rcases h with ⟨v, hv⟩; simp at hv
  | cons x xs ih =>
    cases x with
    | some w =>
      by_cases hxs : xs = []
      · subst hxs
        exact ⟨w, rfl⟩
      · have heq : ffillAux c (some w :: xs) = some w :: ffillAux (some w) xs := rfl
        rw [heq, getLast?_cons_of_ne_nil _ _ (ffillAux_ne_nil _ _ hxs)]
        exact getLast?_isSome_of_all_isSome _ (ffillAux_ne_nil _ _ hxs)
          (ffillAux_isSome (some w) rfl xs)
    | none =>
      have h' : ∃ v : ℚ, some v ∈ xs := by
        rcases h with ⟨v, hv⟩
        rcases List.mem_cons.mp hv with h0 | h0
        · exact absurd h0 (by simp)
        · exact ⟨v, h0⟩
      have hxs : xs ≠ [] := by
        rcases h' with ⟨v, hv⟩
        exact List.ne_nil_of_mem hv
      have heq : ffillAux c (none :: xs) = c :: ffillAux c xs := rfl
      rw [heq, getLast?_cons_of_ne_nil _ _ (ffillAux_ne_nil _ _ hxs)]
      exact ih c h'

theorem fillColumn_isSome (xs : List (Option ℚ)) (h : ∃ v : ℚ, some v ∈ xs) :
    ∀ z ∈ fillColumn xs, z.isSome := by
  have hrev : ∃ v : ℚ, some v ∈ xs.reverse := by
    rcases h with ⟨v, hv⟩
    exact ⟨v, List.mem_reverse.mpr hv⟩
  rcases ffillAux_getLast? none xs.reverse hrev with ⟨v, hlast⟩
  have hhead : (bfill xs).head? = some (some v) := by
    rw [bfill, List.head?_reverse]
    exact hlast
  rcases List.head?_eq_some_iff.mp hhead with ⟨t, ht⟩
  intro z hz
  rw [fillColumn, ht] at hz
  have : ffill (some v :: t) = some v :: ffillAux (some v) t := rfl
  rw [this] at hz
  rcases List.mem_cons.mp hz with rfl | hz'
  · rfl
  · exact ffillAux_isSome (some v) rfl t z hz'

theorem ffillAux_replicate_none (c : Option ℚ) (n : Nat) :
    ffillAux c (List.replicate n none) = List.replicate n c := by
  induction n with
  | zero => rfl
  | succ n ih => simp [List.replicate_succ, ffillAux, ih]

theorem fillColumn_replicate_none (n : Nat) :
    fillColumn (List.replicate n none) = List.replicate n none := by
  have hb : bfill (List.replicate n none) = List.replicate n none := by
    rw [bfill, List.reverse_replicate, ffill, ffillAux_replicate_none,
      List.reverse_replicate]
  rw [fillColumn, hb, ffill, ffillAux_replicate_none]

theorem zip3With_update_map_lag1 (rows : List FeatRow)
    (c1 c24 : List (Option ℚ)) (h1 : rows.length = c1.length)
    (h24 : rows.length = c24.length) :
    (zip3With
      (fun r a b => { r with orders_last_hour := a, orders_last_day_same_hour := b })
      rows c1 c24).map (fun r => r.orders_last_hour) = c1 := by
  induction rows generalizing c1 c24 with
  | nil =>
    cases c1 with
    | nil => rfl
    | cons a t => simp at h1
  | cons r rows ih =>
    cases c1 with
    | nil => simp at h1
    | cons a t1 =>
      cases c24 with
      | nil => simp at h24
      | cons b t24 =>
        simp only [List.length_cons, Nat.succ.injEq] at h1 h24
        simp [zip3With, ih t1 t24 h1 h24]

theorem applyFill_lag1_col (rows : List FeatRow) :
    (applyFill rows).map (fun r => r.orders_last_hour) =
      fillColumn (rows.map (fun r => r.orders_last_hour)) := by
  apply zip3With_update_map_lag1
  · rw [fillColumn_length, List.length_map]
  · rw [fillColumn_length, List.length_map]

theorem ratTrunc_of_nonneg (q : ℚ) (h : 0 ≤ q) : ratTrunc q = ⌊q⌋ :=
  if_neg (not_lt.mpr h)

theorem ratTrunc_intCast (n : ℤ) : ratTrunc (n : ℚ) = n := by
  unfold ratTrunc
  split
  · exact Int.ceil_intCast n
  · exact Int.floor_intCast n

theorem gdf_length (predict : FutureRow → Prediction) (t0 n : Nat) :
    (get_demand_forecast predict t0 n).length = n := by
  simp [get_demand_forecast, makeFuture]

theorem mem_gdf_iff (predict : FutureRow → Prediction) (t0 n : Nat)
    (row : ResultRow) :
    row ∈ get_demand_forecast predict t0 n ↔
      ∃ i, i < n ∧ row = resultOf predict (mkFutureRow (t0 + 1 + i)) := by
  unfold get_demand_forecast makeFuture
  simp only [List.map_map, List.mem_map, List.mem_range, Function.comp]
  constructor
  · rintro ⟨i, hi, rfl⟩
    exact ⟨i, hi, rfl⟩
  · rintro ⟨i, hi, rfl⟩
    exact ⟨i, hi, rfl⟩

theorem resultOf_predicted (predict : FutureRow → Prediction) (row : FutureRow) :
    (resultOf predict row).predicted_orders =
      predicted_orders_of (predict row).yhat := rfl

theorem resultOf_partners (predict : FutureRow → Prediction) (row : FutureRow) :
    (resultOf predict row).delivery_partners_needed =
      delivery_partners_of (resultOf predict row).predicted_orders := rfl

theorem resultOf_rush (predict : FutureRow → Prediction) (row : FutureRow) :
    (resultOf predict row).rush_period =
      rushLabel row.is_lunch_rush row.is_dinner_rush := rfl

theorem predicted_orders_of_nonneg (yhat : ℚ) : 0 ≤ predicted_orders_of yhat :=
  le_max_left 0 _

theorem mem_gdf_fields (predict : FutureRow → Prediction) (t0 n : Nat)
    (row : ResultRow) (h : row ∈ get_demand_forecast predict t0 n) :
    0 ≤ row.predicted_orders ∧
      row.delivery_partners_needed = delivery_partners_of row.predicted_orders := by
  rcases (mem_gdf_iff predict t0 n row).mp h with ⟨i, _, rfl⟩
  exact ⟨predicted_orders_of_nonneg _, rfl⟩

theorem delivery_partners_of_zero : delivery_partners_of 0 = 1 := by
  unfold delivery_partners_of
  norm_num [ratTrunc]

theorem sum_predicted_all_zero (l : List ResultRow)
    (h : ∀ r ∈ l, r.predicted_orders = 0) :
    (l.map (fun r => r.predicted_orders)).sum = 0 := by
  apply List.sum_eq_zero
  intro x hx
  rcases List.mem_map.mp hx with ⟨r, hr, rfl⟩
  exact h r hr

theorem sum_partners_all_one (l : List ResultRow)
    (h : ∀ r ∈ l, r.delivery_partners_needed = 1) :
    (l.map (fun r => r.delivery_partners_needed)).sum = (l.length : ℤ) := by
  have hrep : l.map (fun r => r.delivery_partners_needed) =
      List.replicate (l.map (fun r => r.delivery_partners_needed)).length 1 := by
    apply List.eq_replicate_of_mem
    intro x hx
    rcases List.mem_map.mp hx with ⟨r, hr, rfl⟩
    exact h r hr
  rw [hrep, List.sum_replicate, List.length_map]
  simp

/-! ## Claims -/

/-- Claim C1: for every forecasted hour, the staffing translation computes
`delivery_partners_needed` as `max(1, floor(predicted_orders * 0.6))`, and
for every `predicted_orders ≥ 0` (including 0) the result is an integer
at least 1. -/
theorem claim_C1_staffing_floor (predict : FutureRow → Prediction)
    (t0 n : Nat) (row : ResultRow)
    (h : row ∈ get_demand_forecast predict t0 n) :
    row.delivery_partners_needed =
      max 1 ⌊(row.predicted_orders : ℚ) * (3 / 5)⌋ ∧
    1 ≤ row.delivery_partners_needed := by
  obtain ⟨hpo, hpart⟩ := mem_gdf_fields predict t0 n row h
  constructor
  · rw [hpart]
    unfold delivery_partners_of
    rw [ratTrunc_of_nonneg]
    exact mul_nonneg (by exact_mod_cast hpo) (by norm_num)
  · rw [hpart]
    exact le_max_left 1 _

/-- Witness for C1 at a concrete forecast: the single result row of a
1-hour forecast of the zero model. -/
theorem claim_C1_staffing_floor_witness :
    resultOf predictZero (mkFutureRow 1) ∈ get_demand_forecast predictZero 0 1 ∧
    1 ≤ (resultOf predictZero (mkFutureRow 1)).delivery_partners_needed :=
  ⟨(mem_gdf_iff predictZero 0 1 _).mpr ⟨0, Nat.zero_lt_one, rfl⟩,
   (claim_C1_staffing_floor predictZero 0 1 _
     ((mem_gdf_iff predictZero 0 1 _).mpr ⟨0, Nat.zero_lt_one, rfl⟩)).2⟩

/-- Claim C6: `predicted_orders` of every result row is a non-negative
integer regardless of the sign of the raw model output, and a raw value
that is not positive is clamped to 0 rather than treated as an error. -/
theorem claim_C6_clamp_nonneg (predict : FutureRow → Prediction)
    (t0 n : Nat) (q : ℚ) :
    (∀ row ∈ get_demand_forecast predict t0 n, 0 ≤ row.predicted_orders) ∧
    (q ≤ 0 → predicted_orders_of q = 0) := by
  constructor
  · intro row h
    exact (mem_gdf_fields predict t0 n row h).1
  · intro hq
    unfold predicted_orders_of
    apply max_eq_left
    unfold ratTrunc
    split
    · exact Int.ceil_le.mpr (by exact_mod_cast hq)
    · have : q = 0 := le_antisymm hq (not_lt.mp (by assumption))
      simp [this]

/-- Witness for C6: a model that is negative everywhere still yields a
non-negative prediction, and the raw value -5 is clamped to 0. -/
theorem claim_C6_clamp_nonneg_witness :
    resultOf predictNeg (mkFutureRow 1) ∈ get_demand_forecast predictNeg 0 1 ∧
    0 ≤ (resultOf predictNeg (mkFutureRow 1)).predicted_orders ∧
    predicted_orders_of (-5) = 0 :=
  ⟨(mem_gdf_iff predictNeg 0 1 _).mpr ⟨0, Nat.zero_lt_one, rfl⟩,
   (claim_C6_clamp_nonneg predictNeg 0 1 (-5)).1 _
     ((mem_gdf_iff predictNeg 0 1 _).mpr ⟨0, Nat.zero_lt_one, rfl⟩),
   (claim_C6_clamp_nonneg predictNeg 0 1 (-5)).2 (by norm_num)⟩

/-- Claim C8: the lunch-rush flag holds exactly on hours 12-14 and the
dinner-rush flag exactly on hours 19-22; no hour carries both flags, in
the historical preparation and in the generated future rows alike. -/
theorem claim_C8_disjoint_rush :
    (∀ h : Nat, prep_is_lunch_rush h = decide (12 ≤ h ∧ h ≤ 14) ∧
      prep_is_dinner_rush h = decide (19 ≤ h ∧ h ≤ 22) ∧
      (prep_is_lunch_rush h && prep_is_dinner_rush h) = false) ∧
    (∀ t : Nat, (fut_is_lunch_rush t && fut_is_dinner_rush t) = false) ∧
    (∀ t0 n : Nat, ∀ row ∈ makeFuture t0 n,
      (row.is_lunch_rush && row.is_dinner_rush) = false) := by
  refine ⟨fun h => ⟨rfl, rfl, ?_⟩, fun t => ?_, fun t0 n row hrow => ?_⟩
  · simp only [prep_is_lunch_rush, prep_is_dinner_rush, Bool.and_eq_false_iff,
      decide_eq_false_iff_not]
    by_cases h14 : h ≤ 14
    · right; intro hc; omega
    · left; intro hc; omega
  · simp only [fut_is_lunch_rush, fut_is_dinner_rush, Bool.and_eq_false_iff,
      decide_eq_false_iff_not]
    by_cases h14 : t % 24 ≤ 14
    · right; intro hc; omega
    · left; intro hc; omega
  · rcases List.mem_map.mp hrow with ⟨i, _, rfl⟩
    simp only [mkFutureRow, fut_is_lunch_rush, fut_is_dinner_rush,
      Bool.and_eq_false_iff, decide_eq_false_iff_not]
    by_cases h14 : (t0 + 1 + i) % 24 ≤ 14
    · right; intro hc; omega
    · left; intro hc; omega

/-- Witness for C8 on the concrete future row for hour 13 (a lunch-rush
hour of the one-hour forecast after hour 12). -/
theorem claim_C8_disjoint_rush_witness :
    mkFutureRow 13 ∈ makeFuture 12 1 ∧
    ((mkFutureRow 13).is_lunch_rush && (mkFutureRow 13).is_dinner_rush) = false :=
  ⟨by decide, claim_C8_disjoint_rush.2.2 12 1 (mkFutureRow 13) (by decide)⟩

/-- Claim C9: for every horizon `n` the forecast returns exactly `n`
records, one per consecutive future hour `t0 + 1 + i`, and the current
hour `t0` itself is excluded. -/
theorem claim_C9_horizon (predict : FutureRow → Prediction) (t0 n i : Nat) :
    (get_demand_forecast predict t0 n).length = n ∧
    (i < n →
      ((get_demand_forecast predict t0 n).map (fun r => r.hour))[i]? =
        some (t0 + 1 + i)) ∧
    (∀ row ∈ get_demand_forecast predict t0 n, t0 < row.hour) := by
  refine ⟨gdf_length predict t0 n, fun hin => ?_, fun row hrow => ?_⟩
  · rw [get_demand_forecast, makeFuture, List.map_map, List.map_map]
    simp [List.getElem?_map, List.getElem?_range, hin, resultOf, mkFutureRow]
  · rcases (mem_gdf_iff predict t0 n row).mp hrow with ⟨j, _, rfl⟩
    have : (resultOf predict (mkFutureRow (t0 + 1 + j))).hour = t0 + 1 + j := rfl
    omega

/-- Witness for C9 at a 2-hour forecast from hour 0. -/
theorem claim_C9_horizon_witness :
    (1 : Nat) < 2 ∧
    ((get_demand_forecast predictZero 0 2).map (fun r => r.hour))[1]? = some 2 :=
  ⟨by decide, (claim_C9_horizon predictZero 0 2 1).2.1 (by decide)⟩

theorem ratTrunc_eq_int (q : ℚ) (n : ℤ) (h : q = (n : ℚ)) : ratTrunc q = n := by
  rw [h, ratTrunc_intCast]

theorem ratTrunc_nonneg_eq (q : ℚ) (n : ℤ) (h0 : 0 ≤ q) (h1 : (n : ℚ) ≤ q)
    (h2 : q < n + 1) : ratTrunc q = n := by
  rw [ratTrunc_of_nonneg q h0]
  exact Int.floor_eq_iff.mpr ⟨h1, by exact_mod_cast h2⟩

theorem predicted_orders_of_nonpos (q : ℚ) (h : q ≤ 0) :
    predicted_orders_of q = 0 := by
  unfold predicted_orders_of
  apply max_eq_left
  unfold ratTrunc
  split
  · exact Int.ceil_le.mpr (by exact_mod_cast h)
  · have : q = 0 := le_antisymm h (not_lt.mp (by assumption))
    simp [this]

theorem po_3 : predicted_orders_of 3 = 3 := by
  unfold predicted_orders_of
  rw [ratTrunc_eq_int _ 3 (by norm_num)]
  decide

theorem po_997 : predicted_orders_of 997 = 997 := by
  unfold predicted_orders_of
  rw [ratTrunc_eq_int _ 997 (by norm_num)]
  decide

theorem po_1000 : predicted_orders_of 1000 = 1000 := by
  unfold predicted_orders_of
  rw [ratTrunc_eq_int _ 1000 (by norm_num)]
  decide

theorem dp_3 : delivery_partners_of 3 = 1 := by
  unfold delivery_partners_of
  rw [ratTrunc_nonneg_eq _ 1 (by norm_num) (by norm_num) (by norm_num)]
  decide

theorem dp_997 : delivery_partners_of 997 = 598 := by
  unfold delivery_partners_of
  rw [ratTrunc_nonneg_eq _ 598 (by norm_num) (by norm_num) (by norm_num)]
  decide

theorem dp_1000 : delivery_partners_of 1000 = 600 := by
  unfold delivery_partners_of
  rw [ratTrunc_eq_int _ 600 (by push_cast; norm_num)]
  decide

theorem impact_total (rows : List ResultRow) :
    (calculate_logistics_impact rows).total_predicted_orders =
      (rows.map (fun r => r.predicted_orders)).sum := rfl

theorem impact_saved (rows : List ResultRow) :
    (calculate_logistics_impact rows).delivery_partners_saved =
      ratTrunc ((((rows.map (fun r => r.predicted_orders)).sum : ℤ) : ℚ) * (3 / 4) -
        (((rows.map (fun r => r.delivery_partners_needed)).sum : ℤ) : ℚ)) := rfl

theorem impact_cost (rows : List ResultRow) :
    (calculate_logistics_impact rows).estimated_cost_savings =
      ratTrunc (((((rows.map (fun r => r.predicted_orders)).sum : ℤ) : ℚ) * (3 / 4) -
        (((rows.map (fun r => r.delivery_partners_needed)).sum : ℤ) : ℚ)) * 150) := rfl

theorem impact_avg (rows : List ResultRow) :
    (calculate_logistics_impact rows).avg_delivery_partners =
      round1 ((((rows.map (fun r => r.delivery_partners_needed)).sum : ℤ) : ℚ) /
        (rows.length : ℚ)) := rfl

/-- Claim C2 (amended): the summary computes `total_predicted_orders` as
the sum of `predicted_orders`, a baseline of `total * 0.75`,
`partners_saved` as baseline minus the staffed partner total,
`cost_savings` as `partners_saved * 150` and the average partners per
hour as staffed total over the number of hours (reported rounded to one
decimal); the 1000-order scenario (baseline 750, actual 600, saved 150)
holds for forecasts staffing 600 partners, e.g. a single hour predicted
at 1000 orders — not for every forecast totalling 1000 orders. -/
theorem claim_C2_summary_metrics (rows : List ResultRow) (hne : rows ≠ [])
    (predict : FutureRow → Prediction) (t0 : Nat) :
    (calculate_logistics_impact rows).total_predicted_orders =
        (rows.map (fun r => r.predicted_orders)).sum ∧
    (calculate_logistics_impact rows).delivery_partners_saved =
        ratTrunc ((((rows.map (fun r => r.predicted_orders)).sum : ℤ) : ℚ) * (3 / 4) -
          (((rows.map (fun r => r.delivery_partners_needed)).sum : ℤ) : ℚ)) ∧
    (calculate_logistics_impact rows).estimated_cost_savings =
        ratTrunc (((((rows.map (fun r => r.predicted_orders)).sum : ℤ) : ℚ) * (3 / 4) -
          (((rows.map (fun r => r.delivery_partners_needed)).sum : ℤ) : ℚ)) * 150) ∧
    (calculate_logistics_impact rows).avg_delivery_partners =
        round1 ((((rows.map (fun r => r.delivery_partners_needed)).sum : ℤ) : ℚ) /
          (rows.length : ℚ)) ∧
    ((get_demand_forecast predict t0 1).map (fun r => r.predicted_orders) = [1000] →
      ((((get_demand_forecast predict t0 1).map (fun r => r.predicted_orders)).sum : ℤ) : ℚ) *
          (3 / 4) = 750 ∧
      ((get_demand_forecast predict t0 1).map (fun r => r.delivery_partners_needed)).sum = 600 ∧
      (calculate_logistics_impact
        (get_demand_forecast predict t0 1)).delivery_partners_saved = 150) := by
  refine ⟨rfl, rfl, rfl, rfl, ?_⟩
  intro hmap
  have hg : get_demand_forecast predict t0 1 =
      [resultOf predict (mkFutureRow (t0 + 1))] := by
    simp [get_demand_forecast, makeFuture, List.range_succ]
  rw [hg] at hmap
  have hpo : (resultOf predict (mkFutureRow (t0 + 1))).predicted_orders = 1000 := by
    simpa using hmap
  have hdp : (resultOf predict (mkFutureRow (t0 + 1))).delivery_partners_needed = 600 := by
    rw [resultOf_partners, hpo, dp_1000]
  refine ⟨?_, ?_, ?_⟩
  · rw [hg]
    simp only [List.map_cons, List.map_nil, List.sum_cons, List.sum_nil, hpo]
    push_cast
    norm_num
  · rw [hg]
    simp [hdp]
  · rw [impact_saved, hg]
    simp only [List.map_cons, List.map_nil, List.sum_cons, List.sum_nil, hpo, hdp]
    exact ratTrunc_eq_int _ 150 (by push_cast; norm_num)

/-- Witness for C2 on the single-hour forecast of a constant-1000 model. -/
theorem claim_C2_summary_metrics_witness :
    (get_demand_forecast predict1000 0 1).length = 1 ∧
    (get_demand_forecast predict1000 0 1).map (fun r => r.predicted_orders) = [1000] ∧
    (calculate_logistics_impact
      (get_demand_forecast predict1000 0 1)).delivery_partners_saved = 150 := by
  have hmap : (get_demand_forecast predict1000 0 1).map
      (fun r => r.predicted_orders) = [1000] := by
    have hg : get_demand_forecast predict1000 0 1 =
        [resultOf predict1000 (mkFutureRow 1)] := by
      simp [get_demand_forecast, makeFuture, List.range_succ]
    rw [hg]
    simp only [List.map_cons, List.map_nil]
    rw [resultOf_predicted]
    show [predicted_orders_of 1000] = [1000]
    rw [po_1000]
  have hne : get_demand_forecast predict1000 0 1 ≠ [] := by
    apply List.length_pos.mp
    rw [gdf_length]
    norm_num
  exact ⟨gdf_length predict1000 0 1, hmap,
    ((claim_C2_summary_metrics _ hne predict1000 0).2.2.2.2 hmap).2.2⟩

/-- Counterexample to C2 as stated: splitting 1000 predicted orders over
two hours as 3 + 997 staffs 1 + 598 = 599 partners (per-hour flooring and
the minimum-one rule), so the summary reports 151 partners saved, not
150. -/
theorem claim_C2_counterexample :
    ((get_demand_forecast predictCex 0 2).map (fun r => r.predicted_orders)).sum = 1000 ∧
    ((get_demand_forecast predictCex 0 2).map (fun r => r.delivery_partners_needed)).sum = 599 ∧
    (calculate_logistics_impact
      (get_demand_forecast predictCex 0 2)).delivery_partners_saved = 151 := by
  have hg : get_demand_forecast predictCex 0 2 =
      [resultOf predictCex (mkFutureRow 1), resultOf predictCex (mkFutureRow 2)] := by
    simp [get_demand_forecast, makeFuture, List.range_succ]
  have hy1 : predictCex (mkFutureRow 1) = ⟨3, 0, 0⟩ := by
    simp [predictCex, mkFutureRow]
  have hy2 : predictCex (mkFutureRow 2) = ⟨997, 990, 1004⟩ := by
    simp [predictCex, mkFutureRow]
  have hpo1 : (resultOf predictCex (mkFutureRow 1)).predicted_orders = 3 := by
    rw [resultOf_predicted, hy1]
    exact po_3
  have hpo2 : (resultOf predictCex (mkFutureRow 2)).predicted_orders = 997 := by
    rw [resultOf_predicted, hy2]
    exact po_997
  have hdp1 : (resultOf predictCex (mkFutureRow 1)).delivery_partners_needed = 1 := by
    rw [resultOf_partners, hpo1, dp_3]
  have hdp2 : (resultOf predictCex (mkFutureRow 2)).delivery_partners_needed = 598 := by
    rw [resultOf_partners, hpo2, dp_997]
  refine ⟨?_, ?_, ?_⟩
  · rw [hg]
    simp [hpo1, hpo2]
  · rw [hg]
    simp [hdp1, hdp2]
  · rw [impact_saved, hg]
    simp only [List.map_cons, List.map_nil, List.sum_cons, List.sum_nil,
      hpo1, hpo2, hdp1, hdp2]
    exact ratTrunc_eq_int _ 151 (by push_cast; norm_num)

/-- Claim C10: the summary never clamps the savings at zero — for a
non-empty forecast with zero predicted orders everywhere, every hour
still staffs one partner, so `partners_saved` is minus the number of
hours and `cost_savings` is negative. -/
theorem claim_C10_negative_savings (predict : FutureRow → Prediction)
    (t0 n : Nat) (hn : 0 < n)
    (hz : ∀ row ∈ get_demand_forecast predict t0 n, row.predicted_orders = 0) :
    (calculate_logistics_impact
      (get_demand_forecast predict t0 n)).delivery_partners_saved = -(n : ℤ) ∧
    (calculate_logistics_impact
      (get_demand_forecast predict t0 n)).estimated_cost_savings = -(150 * (n : ℤ)) ∧
    (calculate_logistics_impact
      (get_demand_forecast predict t0 n)).estimated_cost_savings < 0 := by
  have h1 : ∀ r ∈ get_demand_forecast predict t0 n,
      r.delivery_partners_needed = 1 := by
    intro r hr
    rw [(mem_gdf_fields predict t0 n r hr).2, hz r hr, delivery_partners_of_zero]
  have hs0 : ((get_demand_forecast predict t0 n).map
      (fun r => r.predicted_orders)).sum = 0 := sum_predicted_all_zero _ hz
  have hs1 : ((get_demand_forecast predict t0 n).map
      (fun r => r.delivery_partners_needed)).sum = (n : ℤ) := by
    rw [sum_partners_all_one _ h1, gdf_length]
  have hsaved : (calculate_logistics_impact
      (get_demand_forecast predict t0 n)).delivery_partners_saved = -(n : ℤ) := by
    rw [impact_saved, hs0, hs1]
    exact ratTrunc_eq_int _ (-(n : ℤ)) (by push_cast; ring)
  have hcost : (calculate_logistics_impact
      (get_demand_forecast predict t0 n)).estimated_cost_savings = -(150 * (n : ℤ)) := by
    rw [impact_cost, hs0, hs1]
    exact ratTrunc_eq_int _ (-(150 * (n : ℤ))) (by push_cast; ring)
  refine ⟨hsaved, hcost, ?_⟩
  rw [hcost]
  have : 0 < (n : ℤ) := by exact_mod_cast hn
  omega

/-- Witness for C10: the 2-hour forecast of an everywhere-negative model
saves -2 partners and -300 rupees. -/
theorem claim_C10_negative_savings_witness :
    (calculate_logistics_impact
      (get_demand_forecast predictNeg 0 2)).delivery_partners_saved = -2 ∧
    (calculate_logistics_impact
      (get_demand_forecast predictNeg 0 2)).estimated_cost_savings = -300 ∧
    (calculate_logistics_impact
      (get_demand_forecast predictNeg 0 2)).estimated_cost_savings < 0 := by
  have hz : ∀ row ∈ get_demand_forecast predictNeg 0 2,
      row.predicted_orders = 0 := by
    intro row hr
    rcases (mem_gdf_iff predictNeg 0 2 row).mp hr with ⟨i, _, rfl⟩
    rw [resultOf_predicted]
    exact predicted_orders_of_nonpos _ (by norm_num [predictNeg])
  have h := claim_C10_negative_savings predictNeg 0 2 (by norm_num) hz
  refine ⟨?_, ?_, h.2.2⟩
  · rw [h.1]
    norm_num
  · rw [h.2.1]
    norm_num

theorem rollingMeanAt_zero (xs : List ℚ) (a : ℚ) (ha : xs[0]? = some a) :
    rollingMeanAt 3 xs 0 = a := by
  have hlen : 0 < xs.length := by
    rcases List.getElem?_eq_some.mp ha with ⟨hlt, _⟩
    exact hlt
  simp only [rollingMeanAt]
  have hwl : ((xs.take 1).drop 0).length = 1 := by
    rw [List.length_drop, List.length_take, Nat.min_eq_left (by omega)]
  rcases List.length_eq_one.mp hwl with ⟨x, hx⟩
  have h0 : ((xs.take 1).drop 0)[0]? = some a := by
    rw [List.getElem?_drop]
    rw [show (0 : Nat) + 0 = 0 from rfl, List.getElem?_take_of_lt (by omega)]
    exact ha
  rw [hx] at h0
  simp only [List.getElem?_cons_zero, Option.some.injEq] at h0
  subst h0
  rw [show (1 : Nat) - 3 = 0 from rfl, hx]
  simp

theorem rollingMeanAt_one (xs : List ℚ) (a b : ℚ) (ha : xs[0]? = some a)
    (hb : xs[1]? = some b) : rollingMeanAt 3 xs 1 = (a + b) / 2 := by
  have hlen : 1 < xs.length := by
    rcases List.getElem?_eq_some.mp hb with ⟨hlt, _⟩
    exact hlt
  simp only [rollingMeanAt]
  have hwl : ((xs.take 2).drop 0).length = 2 := by
    rw [List.length_drop, List.length_take, Nat.min_eq_left (by omega)]
  rcases List.length_eq_two.mp hwl with ⟨x, y, hxy⟩
  have h0 : ((xs.take 2).drop 0)[0]? = some a := by
    rw [List.getElem?_drop, show (0 : Nat) + 0 = 0 from rfl,
      List.getElem?_take_of_lt (by omega)]
    exact ha
  have h1 : ((xs.take 2).drop 0)[1]? = some b := by
    rw [List.getElem?_drop, show (0 : Nat) + 1 = 1 from rfl,
      List.getElem?_take_of_lt (by omega)]
    exact hb
  rw [hxy] at h0 h1
  simp only [List.getElem?_cons_zero, List.getElem?_cons_succ,
    Option.some.injEq] at h0 h1
  subst h0
  subst h1
  rw [show (2 : Nat) - 3 = 0 from rfl, hxy]
  simp

theorem rollingMeanAt_three (xs : List ℚ) (i : Nat) (a b c : ℚ) (h2 : 2 ≤ i)
    (ha : xs[i - 2]? = some a) (hb : xs[i - 1]? = some b)
    (hc : xs[i]? = some c) : rollingMeanAt 3 xs i = (a + b + c) / 3 := by
  have hlen : i < xs.length := by
    rcases List.getElem?_eq_some.mp hc with ⟨hlt, _⟩
    exact hlt
  simp only [rollingMeanAt]
  have e3 : i + 1 - 3 = i - 2 := by omega
  rw [e3]
  have hwl : ((xs.take (i + 1)).drop (i - 2)).length = 3 := by
    rw [List.length_drop, List.length_take, Nat.min_eq_left (by omega)]
    omega
  rcases List.length_eq_three.mp hwl with ⟨x, y, z, hxyz⟩
  have h0 : ((xs.take (i + 1)).drop (i - 2))[0]? = some a := by
    rw [List.getElem?_drop, show i - 2 + 0 = i - 2 from rfl,
      List.getElem?_take_of_lt (by omega)]
    exact ha
  have h1 : ((xs.take (i + 1)).drop (i - 2))[1]? = some b := by
    rw [List.getElem?_drop, show i - 2 + 1 = i - 1 by omega,
      List.getElem?_take_of_lt (by omega)]
    exact hb
  have hz2 : ((xs.take (i + 1)).drop (i - 2))[2]? = some c := by
    rw [List.getElem?_drop, show i - 2 + 2 = i by omega,
      List.getElem?_take_of_lt (by omega)]
    exact hc
  rw [hxyz] at h0 h1 hz2
  simp only [List.getElem?_cons_zero, List.getElem?_cons_succ,
    Option.some.injEq] at h0 h1 hz2
  subst h0
  subst h1
  subst hz2
  rw [hxyz]
  simp
  ring

/-- Claim C3 (amended): after the backward-then-forward fill every
feature is defined provided the feature's column had at least one defined
entry; a column that is entirely undefined (e.g. produced from an empty
or too-short series) is returned still undefined — the function does not
fail with an error. -/
theorem claim_C3_fill_policy :
    (∀ xs : List (Option ℚ), (∃ v : ℚ, some v ∈ xs) →
      ∀ z ∈ fillColumn xs, z.isSome) ∧
    (∀ n : Nat, fillColumn (List.replicate n none) = List.replicate n none) ∧
    (∀ tbl : List DemandRow,
      (∃ v : ℚ, some v ∈ (logisticsBase tbl).map (fun r => r.orders_last_hour)) →
      ∀ row ∈ create_logistics_features tbl, row.orders_last_hour.isSome) := by
  refine ⟨fillColumn_isSome, fillColumn_replicate_none, ?_⟩
  intro tbl hex row hrow
  have hcol : row.orders_last_hour ∈
      (create_logistics_features tbl).map (fun r => r.orders_last_hour) :=
    List.mem_map_of_mem _ hrow
  rw [create_logistics_features, applyFill_lag1_col] at hcol
  exact fillColumn_isSome _ hex _ hcol

/-- Witness for C3 on a two-entry column with one defined value. -/
theorem claim_C3_fill_policy_witness :
    some (5 : ℚ) ∈ [none, some (5 : ℚ)] ∧
    some (5 : ℚ) ∈ fillColumn [none, some (5 : ℚ)] ∧
    (some (5 : ℚ)).isSome = true :=
  ⟨by simp, by simp [fillColumn, bfill, ffill, ffillAux],
   claim_C3_fill_policy.1 [none, some 5] ⟨5, by simp⟩ (some 5)
     (by simp [fillColumn, bfill, ffill, ffillAux])⟩

/-- Counterexample to C3 as stated: on a single-observation table the lag
feature `orders_last_hour` is undefined even after both fills, and
`create_logistics_features` returns the table normally instead of failing
with a DataError. -/
theorem claim_C3_counterexample :
    (create_logistics_features [demandRow0]).map (fun r => r.orders_last_hour) =
      [none] ∧
    (create_logistics_features [demandRow0]).length = 1 := by
  constructor
  · rw [create_logistics_features, applyFill_lag1_col]
    have hbase : (logisticsBase [demandRow0]).map (fun r => r.orders_last_hour) =
        [none] := by
      simp [logisticsBase, sortedIDs, uniqueAux, seriesOf, sortSeries,
        insertByDate, insertNat, featuresForSeries, zip4With, withFeatures,
        shiftOpt, rollingMean, demandRow0]
    rw [hbase]
    rfl
  · rw [create_logistics_features]
    have hlen : ∀ (rows : List FeatRow) (c1 c24 : List (Option ℚ)),
        rows.length = c1.length → rows.length = c24.length →
        (zip3With (fun r a b =>
          { r with orders_last_hour := a, orders_last_day_same_hour := b })
          rows c1 c24).length = rows.length := by
      intro rows
      induction rows with
      | nil => intro c1 c24 h1 h24; rfl
      | cons r rows ih =>
        intro c1 c24 h1 h24
        cases c1 with
        | nil => simp at h1
        | cons a t1 =>
          cases c24 with
          | nil => simp at h24
          | cons b t24 =>
            simp only [List.length_cons, Nat.succ.injEq] at h1 h24
            simp [zip3With, ih t1 t24 h1 h24]
    rw [applyFill, hlen _ _ _ (by rw [fillColumn_length, List.length_map])
      (by rw [fillColumn_length, List.length_map])]
    simp [logisticsBase, sortedIDs, uniqueAux, seriesOf, sortSeries,
      insertByDate, insertNat, featuresForSeries, zip4With, withFeatures,
      shiftOpt, rollingMean, demandRow0]

/-- Claim C4: within one restaurant's time-ordered series,
`orders_last_hour` at step `i` is `order_count` at step `i - 1` for
`i > 0` and undefined (pre-fill) at `i = 0`; `orders_last_day_same_hour`
at step `i` is `order_count` at step `i - 24` for `i ≥ 24` and undefined
below; and the shifts are computed from the rows of that restaurant
alone, so they never mix values across restaurants. -/
theorem claim_C4_lag_features (rows : List DemandRow) (i : Nat)
    (r : DemandRow) (tbl : List DemandRow) (rid : Nat)
    (h : rows[i]? = some r) :
    (0 < i → ((featuresForSeries rows)[i]?).bind (fun fr => fr.orders_last_hour) =
      rows[i - 1]?.map (fun x => x.order_count)) ∧
    (i = 0 → ((featuresForSeries rows)[i]?).bind (fun fr => fr.orders_last_hour) =
      none) ∧
    (24 ≤ i →
      ((featuresForSeries rows)[i]?).bind (fun fr => fr.orders_last_day_same_hour) =
        rows[i - 24]?.map (fun x => x.order_count)) ∧
    (i < 24 →
      ((featuresForSeries rows)[i]?).bind (fun fr => fr.orders_last_day_same_hour) =
        none) ∧
    seriesOf tbl rid = seriesOf (tbl.filter (fun row => row.restaurant_id == rid)) rid ∧
    featuresForSeries (seriesOf tbl rid) =
      featuresForSeries (seriesOf (tbl.filter (fun row => row.restaurant_id == rid)) rid) := by
  have hf := featuresForSeries_getElem? rows i r h
  have hser : seriesOf tbl rid =
      seriesOf (tbl.filter (fun row => row.restaurant_id == rid)) rid := by
    simp [seriesOf, List.filter_filter, Bool.and_self]
  refine ⟨?_, ?_, ?_, ?_, hser, congrArg featuresForSeries hser⟩
  · intro hi
    have hi' : 1 ≤ i := hi
    rw [hf]
    simp [withFeatures, hi', List.getElem?_map]
  · intro h0
    subst h0
    rw [hf]
    simp [withFeatures]
  · intro hi
    have hne : ¬ i < 24 := by omega
    rw [hf]
    simp [withFeatures, hi, List.getElem?_map]
  · intro hi
    have hne : ¬ 24 ≤ i := by omega
    rw [hf]
    simp [withFeatures, hne]

/-- Witness for C4 at position 24 of a concrete 25-hour series. -/
theorem claim_C4_lag_features_witness :
    rows25[24]? = some r24w ∧ 24 ≤ 24 ∧
    ((featuresForSeries rows25)[24]?).bind (fun fr => fr.orders_last_day_same_hour) =
      rows25[0]?.map (fun x => x.order_count) := by
  have h : rows25[24]? = some r24w := by
    simp [rows25, r24w, List.getElem?_map, List.getElem?_range,
      prep_is_lunch_rush, prep_is_dinner_rush]
  exact ⟨h, le_refl 24,
    (claim_C4_lag_features rows25 24 r24w [] 0 h).2.2.1 (le_refl 24)⟩

/-- Claim C5: `orders_3h_mean` at each step is the mean of `order_count`
over the current and up to two preceding steps, the window shrinking to
size 1 at the start of the series; on the 48-observation alternating
10/20 series its value at index 2 is `mean(10, 20, 10) = 40/3` (displayed
as 13.33). -/
theorem claim_C5_rolling_mean (xs : List ℚ) (i : Nat) (a b c : ℚ) :
    (xs[0]? = some a → (orders_3h_mean xs)[0]? = some a) ∧
    (xs[0]? = some a → xs[1]? = some b →
      (orders_3h_mean xs)[1]? = some ((a + b) / 2)) ∧
    (2 ≤ i → xs[i - 2]? = some a → xs[i - 1]? = some b → xs[i]? = some c →
      (orders_3h_mean xs)[i]? = some ((a + b + c) / 3)) ∧
    (orders_3h_mean alt48)[2]? = some ((10 + 20 + 10) / 3) := by
  refine ⟨?_, ?_, ?_, ?_⟩
  · intro ha
    have hlen : 0 < xs.length := by
      rcases List.getElem?_eq_some.mp ha with ⟨hlt, _⟩
      exact hlt
    rw [orders_3h_mean, rollingMean_getElem? 3 xs 0 hlen,
      rollingMeanAt_zero xs a ha]
  · intro ha hb
    have hlen : 1 < xs.length := by
      rcases List.getElem?_eq_some.mp hb with ⟨hlt, _⟩
      exact hlt
    rw [orders_3h_mean, rollingMean_getElem? 3 xs 1 hlen,
      rollingMeanAt_one xs a b ha hb]
  · intro h2 ha hb hc
    have hlen : i < xs.length := by
      rcases List.getElem?_eq_some.mp hc with ⟨hlt, _⟩
      exact hlt
    rw [orders_3h_mean, rollingMean_getElem? 3 xs i hlen,
      rollingMeanAt_three xs i a b c h2 ha hb hc]
  · have ha : alt48[0]? = some 10 := by
      simp [alt48, List.getElem?_map, List.getElem?_range]
    have hb : alt48[1]? = some 20 := by
      simp [alt48, List.getElem?_map, List.getElem?_range]
    have hc : alt48[2]? = some 10 := by
      simp [alt48, List.getElem?_map, List.getElem?_range]
    have hlen : 2 < alt48.length := by
      rcases List.getElem?_eq_some.mp hc with ⟨hlt, _⟩
      exact hlt
    rw [orders_3h_mean, rollingMean_getElem? 3 alt48 2 hlen,
      rollingMeanAt_three alt48 2 10 20 10 (le_refl 2) ha hb hc]

/-- Witness for C5: the alternating series, window ending at index 2. -/
theorem claim_C5_rolling_mean_witness :
    alt48[0]? = some 10 ∧ alt48[1]? = some 20 ∧ alt48[2]? = some 10 ∧
    (orders_3h_mean alt48)[2]? = some (((10 : ℚ) + 20 + 10) / 3) := by
  have ha : alt48[0]? = some 10 := by
    simp [alt48, List.getElem?_map, List.getElem?_range]
  have hb : alt48[1]? = some 20 := by
    simp [alt48, List.getElem?_map, List.getElem?_range]
  have hc : alt48[2]? = some 10 := by
    simp [alt48, List.getElem?_map, List.getElem?_range]
  exact ⟨ha, hb, hc,
    (claim_C5_rolling_mean alt48 2 10 20 10).2.2.1 (le_refl 2) ha hb hc⟩

/-- Claim C7: the rush label of each result row is a pure function of the
future row's lunch/dinner flags (lunch before dinner, dinner before
regular) and is independent of the predicted volume; a 24-hour horizon
whose first hour has hour-of-day 0 carries exactly 3 "Lunch Rush"
labels. -/
theorem claim_C7_rush_label (p1 p2 predict : FutureRow → Prediction)
    (t0 n : Nat) :
    ((get_demand_forecast p1 t0 n).map (fun r => r.rush_period) =
      (get_demand_forecast p2 t0 n).map (fun r => r.rush_period)) ∧
    (∀ row : FutureRow, (resultOf predict row).rush_period =
      rushLabel row.is_lunch_rush row.is_dinner_rush) ∧
    (rushLabel true true = RushPeriod.lunch ∧
      rushLabel true false = RushPeriod.lunch ∧
      rushLabel false true = RushPeriod.dinner ∧
      rushLabel false false = RushPeriod.regular) ∧
    ((t0 + 1) % 24 = 0 →
      ((get_demand_forecast predict t0 24).map (fun r => r.rush_period)).countP
        (fun x => decide (x = RushPeriod.lunch)) = 3) := by
  have hmap : ∀ p : FutureRow → Prediction, ∀ m : Nat,
      (get_demand_forecast p t0 m).map (fun r => r.rush_period) =
        (List.range m).map (fun i =>
          rushLabel (fut_is_lunch_rush (t0 + 1 + i))
            (fut_is_dinner_rush (t0 + 1 + i))) := by
    intro p m
    rw [get_demand_forecast, makeFuture, List.map_map, List.map_map]
    rfl
  refine ⟨by rw [hmap p1 n, hmap p2 n], fun row => rfl, ⟨rfl, rfl, rfl, rfl⟩, ?_⟩
  intro h24
  rw [hmap predict 24]
  have e2 : (List.range 24).map (fun i =>
      rushLabel (fut_is_lunch_rush (t0 + 1 + i)) (fut_is_dinner_rush (t0 + 1 + i))) =
      (List.range 24).map (fun i =>
        rushLabel (fut_is_lunch_rush i) (fut_is_dinner_rush i)) := by
    apply List.map_congr_left
    intro i hi
    have him : (t0 + 1 + i) % 24 = i % 24 := by omega
    rw [fut_is_lunch_rush, fut_is_dinner_rush, fut_is_lunch_rush,
      fut_is_dinner_rush, him]
  rw [e2]
  decide

/-- Witness for C7: a 24-hour forecast starting after hour 23. -/
theorem claim_C7_rush_label_witness :
    (23 + 1) % 24 = 0 ∧
    ((get_demand_forecast predictZero 23 24).map (fun r => r.rush_period)).countP
      (fun x => decide (x = RushPeriod.lunch)) = 3 :=
  ⟨rfl, (claim_C7_rush_label predictZero predictZero predictZero 23 24).2.2.2 rfl⟩
